import Mathlib

/-!
Verification of the HMC sampling core of `hmc_tomography`.

The Python source is shallowly embedded: numpy column vectors of length `n`
become functions `Fin n → ℚ`, elementwise numpy operations become pointwise
operations, Python `int()` truncation and float `%` on nonnegative values
become `Int.floor`-based operations on `ℚ`, and the in-place mutation of
numpy arrays (where a claim is about aliasing) is modelled by an explicit
store of arrays addressed by natural-number references.

Embedded components:
 * `corrector` — `_AbstractDistribution.corrector` (Distributions/base.py)
 * `update_bounds` — `_AbstractDistribution.update_bounds` (Distributions/base.py)
 * `propagate_leapfrog` — `HMC.propagate_leapfrog` (Samplers.py)
 * `HMC_init` — `HMC._init_` (Samplers.py)
 * the per-proposal acceptance step and the thinning/flush bookkeeping of
   `HMC.sample` (Samplers.py), including `flush_samples`.

Note on names: the sampled run's nominal time step (the `sample` parameter)
and the per-proposal jitter helper share the spelling `_time_step` in the
Python source; they are embedded as the distinct entities they denote
(`timeStepDrawRandomized` applied to the nominal value).
-/

set_option autoImplicit false

namespace HmcTomography

/-- A dense column vector of length `n` (numpy shape `(n, 1)`). -/
abbrev Vec (n : ℕ) := Fin n → ℚ

/-- Elementwise vector addition (numpy `+`). -/
def vadd {n : ℕ} (x y : Vec n) : Vec n := fun i => x i + y i

/-- Elementwise vector subtraction (numpy `-`). -/
def vsub {n : ℕ} (x y : Vec n) : Vec n := fun i => x i - y i

/-- Scalar multiplication (numpy scalar `*`). -/
def smul {n : ℕ} (a : ℚ) (x : Vec n) : Vec n := fun i => a * x i

/-!
## Boundary corrector

`_AbstractDistribution.corrector` (Distributions/base.py lines 112-141).
The lower-bound pass computes its mask `too_low = coordinates < lower_bounds`
from the incoming coordinates and reflects the masked components of both
arrays; the upper-bound pass then computes `too_high` from the *updated*
coordinates.  Either bound may be absent (`None`).
-/

/-- Lower-bound pass: `coordinates[too_low] += 2 * (lower - coordinates[too_low])`,
`momentum[too_low] *= -1.0`, with `too_low` taken from the incoming coordinates. -/
def lowerCorrect {n : ℕ} (lb : Vec n) (cm : Vec n × Vec n) : Vec n × Vec n :=
  (fun i => if cm.1 i < lb i then cm.1 i + 2 * (lb i - cm.1 i) else cm.1 i,
   fun i => if cm.1 i < lb i then cm.2 i * (-1) else cm.2 i)

/-- Upper-bound pass: `coordinates[too_high] += 2 * (upper - coordinates[too_high])`,
`momentum[too_high] *= -1.0`, with `too_high` taken from the incoming coordinates. -/
def upperCorrect {n : ℕ} (ub : Vec n) (cm : Vec n × Vec n) : Vec n × Vec n :=
  (fun i => if ub i < cm.1 i then cm.1 i + 2 * (ub i - cm.1 i) else cm.1 i,
   fun i => if ub i < cm.1 i then cm.2 i * (-1) else cm.2 i)

/-- `_AbstractDistribution.corrector`: the lower-bound pass (if lower bounds are
set) followed by the upper-bound pass (if upper bounds are set) on the result. -/
def corrector {n : ℕ} (lowerBounds upperBounds : Option (Vec n)) (c m : Vec n) :
    Vec n × Vec n :=
  let cm1 : Vec n × Vec n :=
    match lowerBounds with
    | some lb => lowerCorrect lb (c, m)
    | none => (c, m)
  match upperBounds with
  | some ub => upperCorrect ub cm1
  | none => cm1

/-- C6, counterexample: with bounds `lower = [0]`, `upper = [1]`, a coordinate `-5`
(strictly below its lower bound) is not replaced by `-5 + 2 * (0 - (-5)) = 5` with
its momentum negated, as the claim states; the upper-bound pass re-tests the
already-reflected value, reflects it again about the upper bound, and negates the
momentum a second time, yielding coordinate `-3` with the momentum sign restored. -/
theorem corrector_lower_reflection_overridden :
    (corrector (n := 1) (some fun _ => 0) (some fun _ => 1) (fun _ => -5) (fun _ => 1)).1 0 = -3 ∧
    (corrector (n := 1) (some fun _ => 0) (some fun _ => 1) (fun _ => -5) (fun _ => 1)).2 0 = 1 ∧
    ¬((corrector (n := 1) (some fun _ => 0) (some fun _ => 1) (fun _ => -5) (fun _ => 1)).1 0
          = -5 + 2 * (0 - (-5)) ∧
      (corrector (n := 1) (some fun _ => 0) (some fun _ => 1) (fun _ => -5) (fun _ => 1)).2 0
          = -1) := by
  norm_num [corrector, lowerCorrect, upperCorrect]

/-- C6 (amended): with both bounds present, the corrector acts per dimension as a
lower-bound pass followed by an upper-bound pass on the updated values: a component
within its bounds (and its momentum) is unchanged — in particular the correction is
the identity, hence idempotent, when no bound is violated; a component strictly
below its lower bound is reflected to `c + 2*(lb - c)` with its momentum negated,
provided the reflected value does not exceed the upper bound; if the reflected
value lands strictly above the upper bound it is reflected a second time about the
upper bound and the momentum is negated again (restoring its sign); a component
strictly above its upper bound (and not below its lower bound) is reflected to
`c + 2*(ub - c)` with its momentum negated. -/
theorem corrector_componentwise {n : ℕ} (lb ub c m : Vec n) (i : Fin n) :
    (lb i ≤ c i → c i ≤ ub i →
      (corrector (some lb) (some ub) c m).1 i = c i ∧
      (corrector (some lb) (some ub) c m).2 i = m i) ∧
    (c i < lb i → c i + 2 * (lb i - c i) ≤ ub i →
      (corrector (some lb) (some ub) c m).1 i = c i + 2 * (lb i - c i) ∧
      (corrector (some lb) (some ub) c m).2 i = -(m i)) ∧
    (c i < lb i → ub i < c i + 2 * (lb i - c i) →
      (corrector (some lb) (some ub) c m).1 i
          = (c i + 2 * (lb i - c i)) + 2 * (ub i - (c i + 2 * (lb i - c i))) ∧
      (corrector (some lb) (some ub) c m).2 i = m i) ∧
    (lb i ≤ c i → ub i < c i →
      (corrector (some lb) (some ub) c m).1 i = c i + 2 * (ub i - c i) ∧
      (corrector (some lb) (some ub) c m).2 i = -(m i)) ∧
    ((∀ j, lb j ≤ c j ∧ c j ≤ ub j) → corrector (some lb) (some ub) c m = (c, m)) := by
  refine ⟨fun h1 h2 => ⟨?_, ?_⟩, fun h1 h2 => ⟨?_, ?_⟩, fun h1 h2 => ⟨?_, ?_⟩,
    fun h1 h2 => ⟨?_, ?_⟩, fun hall => ?_⟩
  case _ => simp only [corrector, lowerCorrect, upperCorrect]; split_ifs <;>
    first | rfl | linarith
  case _ => simp only [corrector, lowerCorrect, upperCorrect]; split_ifs <;>
    first | rfl | linarith
  case _ => simp only [corrector, lowerCorrect, upperCorrect]; split_ifs <;>
    first | rfl | linarith
  case _ => simp only [corrector, lowerCorrect, upperCorrect]; split_ifs <;>
    first | rfl | linarith | ring
  case _ => simp only [corrector, lowerCorrect, upperCorrect]; split_ifs <;>
    first | rfl | linarith
  case _ => simp only [corrector, lowerCorrect, upperCorrect]; split_ifs <;>
    first | rfl | linarith | ring
  case _ => simp only [corrector, lowerCorrect, upperCorrect]; split_ifs <;>
    first | rfl | linarith
  case _ => simp only [corrector, lowerCorrect, upperCorrect]; split_ifs <;>
    first | rfl | linarith | ring
  case _ =>
    refine Prod.ext (funext fun j => ?_) (funext fun j => ?_) <;>
      · simp only [corrector, lowerCorrect, upperCorrect]
        have hj1 := (hall j).1
        have hj2 := (hall j).2
        split_ifs <;> first | rfl | linarith

/-- C6 (witness): the amended characterization applied at the concrete input
`lower = [0]`, `upper = [1]`, coordinate `[-5]`, momentum `[1]`, dimension `0`
(the double-reflection case). -/
theorem corrector_componentwise_witness :
    (corrector (n := 1) (some fun _ => 0) (some fun _ => 1) (fun _ => -5) (fun _ => 1)).1 0
        = ((-5) + 2 * (0 - (-5))) + 2 * (1 - ((-5) + 2 * (0 - (-5)))) ∧
    (corrector (n := 1) (some fun _ => 0) (some fun _ => 1) (fun _ => -5) (fun _ => 1)).2 0
        = 1 :=
  (corrector_componentwise (n := 1) (fun _ => 0) (fun _ => 1) (fun _ => -5) (fun _ => 1)
    0).2.2.1 (by norm_num) (by norm_num)

/-!
## Leapfrog integrator

`HMC.propagate_leapfrog` (Samplers.py lines 266-322).  The collaborators it
consults (`mass_matrix.kinetic_energy_gradient`, `target.gradient`,
`prior.gradient`, `prior.bounded`, `prior.corrector`) are abstract interfaces,
bundled in `LeapfrogSystem`.
-/

/-- The collaborators consulted by the integrator and the proposal loop. -/
structure LeapfrogSystem (n : ℕ) where
  kineticGrad : Vec n → Vec n
  targetGrad : Vec n → Vec n
  priorGrad : Vec n → Vec n
  bounded : Bool
  priorCorrector : Vec n → Vec n → Vec n × Vec n

/-- The guarded correction `if self.prior.bounded: self.prior.corrector(...)`. -/
def correctIfBounded {n : ℕ} (S : LeapfrogSystem n) (cm : Vec n × Vec n) : Vec n × Vec n :=
  if S.bounded then S.priorCorrector cm.1 cm.2 else cm

/-- `HMC.propagate_leapfrog`: half position update (with correction), then
`iterations - 1` loop bodies of full momentum update, full position update and
correction (`for i in range(iterations - 1)` embedded as a fold over
`List.range`), then the final full momentum update, closing half position
update and correction.  The source's initial `.copy()` calls make the body
operate on fresh arrays; here values are immutable and aliasing is treated
separately in the store model below. -/
def propagate_leapfrog {n : ℕ} (S : LeapfrogSystem n) (coordinates momentum : Vec n)
    (iterations : ℕ) (t : ℚ) : Vec n × Vec n :=
  let cm0 := correctIfBounded S
    (vadd coordinates (smul (1/2 * t) (S.kineticGrad momentum)), momentum)
  let cmL := (List.range (iterations - 1)).foldl (fun cm _ =>
    let g := vadd (S.targetGrad cm.1) (S.priorGrad cm.1)
    let m2 := vsub cm.2 (smul t g)
    let c2 := vadd cm.1 (smul t (S.kineticGrad m2))
    correctIfBounded S (c2, m2)) cm0
  let g := vadd (S.targetGrad cmL.1) (S.priorGrad cmL.1)
  let m2 := vsub cmL.2 (smul t g)
  let c2 := vadd cmL.1 (smul (1/2 * t) (S.kineticGrad m2))
  correctIfBounded S (c2, m2)

/-- Instrumented copy of `propagate_leapfrog` that also counts how many times
the summed `target.gradient + prior.gradient` is evaluated. -/
def propagate_leapfrog_counted {n : ℕ} (S : LeapfrogSystem n) (coordinates momentum : Vec n)
    (iterations : ℕ) (t : ℚ) : (Vec n × Vec n) × ℕ :=
  let cm0 := (correctIfBounded S
    (vadd coordinates (smul (1/2 * t) (S.kineticGrad momentum)), momentum), 0)
  let cmL := (List.range (iterations - 1)).foldl (fun x _ =>
    let g := vadd (S.targetGrad x.1.1) (S.priorGrad x.1.1)
    let m2 := vsub x.1.2 (smul t g)
    let c2 := vadd x.1.1 (smul t (S.kineticGrad m2))
    (correctIfBounded S (c2, m2), x.2 + 1)) cm0
  let g := vadd (S.targetGrad cmL.1.1) (S.priorGrad cmL.1.1)
  let m2 := vsub cmL.1.2 (smul t g)
  let c2 := vadd cmL.1.1 (smul (1/2 * t) (S.kineticGrad m2))
  (correctIfBounded S (c2, m2), cmL.2 + 1)

/-- Spec §4.1 step 1: half position update `c += 0.5 * step_size * K(p)`,
then boundary correction if the prior is bounded. -/
def specHalfPositionStep {n : ℕ} (S : LeapfrogSystem n) (t : ℚ) (cm : Vec n × Vec n) :
    Vec n × Vec n :=
  correctIfBounded S (vadd cm.1 (smul (1/2 * t) (S.kineticGrad cm.2)), cm.2)

/-- Spec §4.1 step 2 body: full momentum update, full position update, correction. -/
def specFullStep {n : ℕ} (S : LeapfrogSystem n) (t : ℚ) (cm : Vec n × Vec n) :
    Vec n × Vec n :=
  let m2 := vsub cm.2 (smul t (vadd (S.targetGrad cm.1) (S.priorGrad cm.1)))
  correctIfBounded S (vadd cm.1 (smul t (S.kineticGrad m2)), m2)

/-- Spec §4.1 step 3: final full momentum update, closing half position update,
correction. -/
def specClosingStep {n : ℕ} (S : LeapfrogSystem n) (t : ℚ) (cm : Vec n × Vec n) :
    Vec n × Vec n :=
  let m2 := vsub cm.2 (smul t (vadd (S.targetGrad cm.1) (S.priorGrad cm.1)))
  correctIfBounded S (vadd cm.1 (smul (1/2 * t) (S.kineticGrad m2)), m2)

/-- The position-leading leapfrog scheme exactly as worded in spec §4.1. -/
def leapfrogSpec {n : ℕ} (S : LeapfrogSystem n) (c m : Vec n) (steps : ℕ) (t : ℚ) :
    Vec n × Vec n :=
  specClosingStep S t ((specFullStep S t)^[steps - 1] (specHalfPositionStep S t (c, m)))

lemma foldl_range_const {α : Type} (f : α → α) (k : ℕ) (a : α) :
    (List.range k).foldl (fun x _ => f x) a = f^[k] a := by
  induction k with
  | zero => simp
  | succ j ih =>
    rw [List.range_succ, List.foldl_append]
    simp [ih, Function.iterate_succ_apply']

lemma foldl_range_count {α : Type} (f : α → α) (k : ℕ) (a : α) (i : ℕ) :
    (List.range k).foldl (fun x _ => (f x.1, x.2 + 1)) (a, i) = (f^[k] a, i + k) := by
  induction k with
  | zero => simp
  | succ j ih =>
    rw [List.range_succ, List.foldl_append, ih]
    simp [Function.iterate_succ_apply']
    omega

/-- C4: for every `steps ≥ 1`, `propagate_leapfrog` coincides with the
position-leading leapfrog of spec §4.1 — one half position update, `steps - 1`
full momentum/position iterations, a final full momentum update and a closing
half position update, with boundary correction after every position update when
the prior is bounded — and it evaluates the summed target+prior gradient
exactly `steps` times. -/
theorem propagate_leapfrog_matches_spec {n : ℕ} (S : LeapfrogSystem n) (c m : Vec n)
    (steps : ℕ) (t : ℚ) (h : 1 ≤ steps) :
    propagate_leapfrog S c m steps t = leapfrogSpec S c m steps t ∧
    (propagate_leapfrog_counted S c m steps t).1 = propagate_leapfrog S c m steps t ∧
    (propagate_leapfrog_counted S c m steps t).2 = steps := by
  have h1 : propagate_leapfrog S c m steps t
      = specClosingStep S t ((List.range (steps - 1)).foldl
          (fun cm _ => specFullStep S t cm) (specHalfPositionStep S t (c, m))) := rfl
  have h2 : propagate_leapfrog_counted S c m steps t
      = (specClosingStep S t (((List.range (steps - 1)).foldl
            (fun x _ => (specFullStep S t x.1, x.2 + 1))
            (specHalfPositionStep S t (c, m), 0)).1),
         ((List.range (steps - 1)).foldl
            (fun x _ => (specFullStep S t x.1, x.2 + 1))
            (specHalfPositionStep S t (c, m), 0)).2 + 1) := rfl
  refine ⟨?_, ?_, ?_⟩
  · rw [h1, foldl_range_const]
    rfl
  · rw [h1, h2, foldl_range_count, foldl_range_const]
  · rw [h2, foldl_range_count]
    simp
    omega

/-- The deterministic free-particle collaborators of spec §8: identity kinetic
gradient, zero target and prior gradients, unbounded prior. -/
def freeSystem : LeapfrogSystem 1 where
  kineticGrad := fun p => p
  targetGrad := fun _ => fun _ => 0
  priorGrad := fun _ => fun _ => 0
  bounded := false
  priorCorrector := fun c m => (c, m)

/-- C4 (witness): the leapfrog theorem applied to the free-particle scenario of
spec §8 (`steps = 1`, `step_size = 1/10`, coordinate `1`, momentum `0`); the
resulting coordinate is unchanged. -/
theorem propagate_leapfrog_matches_spec_witness :
    (propagate_leapfrog freeSystem (fun _ => 1) (fun _ => 0) 1 (1/10)
        = leapfrogSpec freeSystem (fun _ => 1) (fun _ => 0) 1 (1/10) ∧
      (propagate_leapfrog_counted freeSystem (fun _ => 1) (fun _ => 0) 1 (1/10)).1
        = propagate_leapfrog freeSystem (fun _ => 1) (fun _ => 0) 1 (1/10) ∧
      (propagate_leapfrog_counted freeSystem (fun _ => 1) (fun _ => 0) 1 (1/10)).2 = 1) ∧
    (propagate_leapfrog freeSystem (fun _ => 1) (fun _ => 0) 1 (1/10)).1 0 = 1 :=
  ⟨propagate_leapfrog_matches_spec freeSystem (fun _ => 1) (fun _ => 0) 1 (1/10)
      (by norm_num),
   by norm_num [propagate_leapfrog, correctIfBounded, freeSystem, vadd, vsub, smul]⟩

/-!
## Aliasing model for the integrator

Claim C7 is about mutation of the numpy arrays passed to
`propagate_leapfrog`.  Arrays live in a store (a list of vectors addressed by
natural-number references); numpy `+=`/`-=` and the in-place corrector are
store updates at a reference, and `.copy()` allocates a fresh reference.
`propagate_leapfrog_store` replays the source on this store.
-/

/-- A store of numpy arrays, addressed by references (list positions). -/
abbrev Store (n : ℕ) := List (Vec n)

/-- Read the array at reference `r` (defaulting to the zero vector off-store). -/
def readArr {n : ℕ} (st : Store n) (r : ℕ) : Vec n := st.getD r (fun _ => 0)

/-- Overwrite the array at reference `r` in place. -/
def writeArr {n : ℕ} (st : Store n) (r : ℕ) (v : Vec n) : Store n := st.set r v

/-- `.copy()`: allocate a fresh array holding `v`, returning its reference. -/
def allocArr {n : ℕ} (st : Store n) (v : Vec n) : Store n × ℕ := (st ++ [v], st.length)

/-- numpy `+=`: in-place elementwise addition at reference `r`. -/
def iaddArr {n : ℕ} (st : Store n) (r : ℕ) (d : Vec n) : Store n :=
  writeArr st r (vadd (readArr st r) d)

/-- numpy `-=`: in-place elementwise subtraction at reference `r`. -/
def isubArr {n : ℕ} (st : Store n) (r : ℕ) (d : Vec n) : Store n :=
  writeArr st r (vsub (readArr st r) d)

/-- `if self.prior.bounded: self.prior.corrector(coordinates, momentum)` —
the corrector mutates both arrays in place. -/
def correctArrIfBounded {n : ℕ} (S : LeapfrogSystem n) (st : Store n) (rc rm : ℕ) :
    Store n :=
  if S.bounded then
    let cm := S.priorCorrector (readArr st rc) (readArr st rm)
    writeArr (writeArr st rc cm.1) rm cm.2
  else st

/-- Loop body of `propagate_leapfrog` (Samplers.py lines 300-309) on the store:
full momentum update, full position update, correction — all in place. -/
def leapfrogStoreLoopBody {n : ℕ} (S : LeapfrogSystem n) (t : ℚ) (rc rm : ℕ)
    (st : Store n) : Store n :=
  let g := vadd (S.targetGrad (readArr st rc)) (S.priorGrad (readArr st rc))
  let st1 := isubArr st rm (smul t g)
  let st2 := iaddArr st1 rc (smul t (S.kineticGrad (readArr st1 rm)))
  correctArrIfBounded S st2 rc rm

/-- `HMC.propagate_leapfrog` on the store: copy both inputs (lines 288-289),
then perform every update in place on the copies, returning the final store and
the references of the returned pair. -/
def propagate_leapfrog_store {n : ℕ} (S : LeapfrogSystem n) (st0 : Store n)
    (rc rm : ℕ) (iterations : ℕ) (t : ℚ) : Store n × ℕ × ℕ :=
  let a1 := allocArr st0 (readArr st0 rc)
  let a2 := allocArr a1.1 (readArr a1.1 rm)
  let rc2 := a1.2
  let rm2 := a2.2
  let st1 := correctArrIfBounded S
    (iaddArr a2.1 rc2 (smul (1/2 * t) (S.kineticGrad (readArr a2.1 rm2)))) rc2 rm2
  let st2 := (List.range (iterations - 1)).foldl
    (fun st _ => leapfrogStoreLoopBody S t rc2 rm2 st) st1
  let g := vadd (S.targetGrad (readArr st2 rc2)) (S.priorGrad (readArr st2 rc2))
  let st3 := isubArr st2 rm2 (smul t g)
  let st4 := iaddArr st3 rc2 (smul (1/2 * t) (S.kineticGrad (readArr st3 rm2)))
  (correctArrIfBounded S st4 rc2 rm2, rc2, rm2)

lemma readArr_writeArr_ne {n : ℕ} (st : Store n) (r j : ℕ) (v : Vec n) (h : r ≠ j) :
    readArr (writeArr st r v) j = readArr st j := by
  simp [readArr, writeArr, List.getD_eq_getElem?_getD, List.getElem?_set_ne h]

lemma readArr_iaddArr_ne {n : ℕ} (st : Store n) (r j : ℕ) (d : Vec n) (h : r ≠ j) :
    readArr (iaddArr st r d) j = readArr st j := readArr_writeArr_ne st r j _ h

lemma readArr_isubArr_ne {n : ℕ} (st : Store n) (r j : ℕ) (d : Vec n) (h : r ≠ j) :
    readArr (isubArr st r d) j = readArr st j := readArr_writeArr_ne st r j _ h

lemma readArr_correctArr_ne {n : ℕ} (S : LeapfrogSystem n) (st : Store n)
    (rc rm j : ℕ) (hc : rc ≠ j) (hm : rm ≠ j) :
    readArr (correctArrIfBounded S st rc rm) j = readArr st j := by
  unfold correctArrIfBounded
  split
  · rw [readArr_writeArr_ne _ _ _ _ hm, readArr_writeArr_ne _ _ _ _ hc]
  · rfl

lemma readArr_loopBody_ne {n : ℕ} (S : LeapfrogSystem n) (t : ℚ) (st : Store n)
    (rc rm j : ℕ) (hc : rc ≠ j) (hm : rm ≠ j) :
    readArr (leapfrogStoreLoopBody S t rc rm st) j = readArr st j := by
  unfold leapfrogStoreLoopBody
  rw [readArr_correctArr_ne _ _ _ _ _ hc hm, readArr_iaddArr_ne _ _ _ _ hc,
    readArr_isubArr_ne _ _ _ _ hm]

lemma readArr_loopIter_ne {n : ℕ} (S : LeapfrogSystem n) (t : ℚ) (st : Store n)
    (rc rm j : ℕ) (hc : rc ≠ j) (hm : rm ≠ j) (k : ℕ) :
    readArr ((leapfrogStoreLoopBody S t rc rm)^[k] st) j = readArr st j := by
  induction k generalizing st with
  | zero => rfl
  | succ i ih =>
    rw [Function.iterate_succ_apply, ih, readArr_loopBody_ne _ _ _ _ _ _ hc hm]

lemma readArr_append_left {n : ℕ} (st : Store n) (v : Vec n) (j : ℕ)
    (h : j < st.length) : readArr (st ++ [v]) j = readArr st j := by
  simp [readArr, List.getD_eq_getElem?_getD, List.getElem?_append_left h]

/-- C7: `propagate_leapfrog` never mutates the arrays passed to it — after the
run, the store still holds the original values at the input references — and
the returned pair consists of fresh references distinct from both inputs (the
inputs are copied before the first in-place update). -/
theorem propagate_leapfrog_no_input_mutation {n : ℕ} (S : LeapfrogSystem n)
    (st : Store n) (rc rm iterations : ℕ) (t : ℚ)
    (hc : rc < st.length) (hm : rm < st.length) :
    readArr (propagate_leapfrog_store S st rc rm iterations t).1 rc = readArr st rc ∧
    readArr (propagate_leapfrog_store S st rc rm iterations t).1 rm = readArr st rm ∧
    (propagate_leapfrog_store S st rc rm iterations t).2.1 ≠ rc ∧
    (propagate_leapfrog_store S st rc rm iterations t).2.1 ≠ rm ∧
    (propagate_leapfrog_store S st rc rm iterations t).2.2 ≠ rc ∧
    (propagate_leapfrog_store S st rc rm iterations t).2.2 ≠ rm := by
  have hrc2 : (propagate_leapfrog_store S st rc rm iterations t).2.1 = st.length := rfl
  have hrm2 : (propagate_leapfrog_store S st rc rm iterations t).2.2 = st.length + 1 := by
    simp [propagate_leapfrog_store, allocArr]
  have hne_c : ∀ j, j < st.length →
      readArr (propagate_leapfrog_store S st rc rm iterations t).1 j = readArr st j := by
    intro j hj
    have h1 : st.length ≠ j := by omega
    have h2 : st.length + 1 ≠ j := by omega
    simp only [propagate_leapfrog_store, allocArr, List.length_append,
      List.length_singleton]
    rw [readArr_correctArr_ne _ _ _ _ _ h1 h2, readArr_iaddArr_ne _ _ _ _ h1,
      readArr_isubArr_ne _ _ _ _ h2, foldl_range_const,
      readArr_loopIter_ne _ _ _ _ _ _ h1 h2,
      readArr_correctArr_ne _ _ _ _ _ h1 h2, readArr_iaddArr_ne _ _ _ _ h1,
      readArr_append_left _ _ _ (by simp; omega), readArr_append_left _ _ _ hj]
  exact ⟨hne_c rc hc, hne_c rm hm, by omega, by omega, by omega, by omega⟩

/-- C7 (witness): the no-mutation theorem applied on a two-array store holding
`[1]` and `[2]`, with the free-particle collaborators, one iteration, time step
`1/2`. -/
theorem propagate_leapfrog_no_input_mutation_witness :
    readArr (propagate_leapfrog_store freeSystem [fun _ => 1, fun _ => 2] 0 1 1 (1/2)).1 0
        = readArr [fun _ => 1, fun _ => 2] 0 ∧
    readArr (propagate_leapfrog_store freeSystem [fun _ => 1, fun _ => 2] 0 1 1 (1/2)).1 1
        = readArr [fun _ => 1, fun _ => 2] 1 ∧
    (propagate_leapfrog_store freeSystem [fun _ => 1, fun _ => 2] 0 1 1 (1/2)).2.1 ≠ 0 ∧
    (propagate_leapfrog_store freeSystem [fun _ => 1, fun _ => 2] 0 1 1 (1/2)).2.1 ≠ 1 ∧
    (propagate_leapfrog_store freeSystem [fun _ => 1, fun _ => 2] 0 1 1 (1/2)).2.2 ≠ 0 ∧
    (propagate_leapfrog_store freeSystem [fun _ => 1, fun _ => 2] 0 1 1 (1/2)).2.2 ≠ 1 :=
  propagate_leapfrog_no_input_mutation freeSystem [fun _ => 1, fun _ => 2] 0 1 1 (1/2)
    (by norm_num) (by norm_num)

/-!
## Metropolis acceptance

Lines 201-208 of Samplers.py: the proposal is accepted iff
`exp(hamiltonian - new_hamiltonian) > uniform(0, 1)`; on acceptance the chain
coordinates become a copy of the integrator's output, on rejection nothing
happens (`pass`).  Energies are real numbers; the uniform draw `u` lies in
`[0, 1)`.
-/

open Classical in
/-- The branch of lines 202-208 acting on the chain coordinates. -/
noncomputable def acceptanceStep {n : ℕ} (h hNew u : ℝ) (c cNew : Vec n) : Vec n :=
  if Real.exp (h - hNew) > u then cNew else c

open Classical in
/-- The `accepted += 1` counter contribution of one proposal. -/
noncomputable def acceptedIncrement (h hNew u : ℝ) : ℕ :=
  if Real.exp (h - hNew) > u then 1 else 0

/-- C3: a proposal is accepted (the counter increments) iff
`exp(H - H') > u`; on acceptance the chain coordinates become the integrator
output, on rejection they are exactly unchanged; and whenever `H' ≤ H` the
proposal is accepted for every admissible draw `u < 1`. -/
theorem metropolis_acceptance {n : ℕ} (h hNew u : ℝ) (c cNew : Vec n) :
    (acceptedIncrement h hNew u = 1 ↔ Real.exp (h - hNew) > u) ∧
    (Real.exp (h - hNew) > u → acceptanceStep h hNew u c cNew = cNew) ∧
    (¬ Real.exp (h - hNew) > u → acceptanceStep h hNew u c cNew = c) ∧
    (hNew ≤ h → u < 1 → Real.exp (h - hNew) > u) := by
  refine ⟨?_, fun hacc => ?_, fun hrej => ?_, fun hle hu => ?_⟩
  · unfold acceptedIncrement
    split_ifs with hc <;> simp [hc]
  · simp [acceptanceStep, hacc]
  · simp [acceptanceStep, hrej]
  · have hx : (0:ℝ) ≤ h - hNew := by linarith
    have := Real.add_one_le_exp (h - hNew)
    linarith

/-- C3 (witness): the acceptance theorem at `H = H' = 0`, `u = 1/2`: the
proposal is accepted and the coordinates become the proposed ones. -/
theorem metropolis_acceptance_witness :
    acceptanceStep (n := 1) 0 0 (1/2) (fun _ => 0) (fun _ => 1) = (fun _ => 1) ∧
    Real.exp ((0:ℝ) - 0) > (1/2 : ℝ) :=
  have hexp : Real.exp ((0:ℝ) - 0) > (1/2 : ℝ) := by
    rw [sub_self, Real.exp_zero]; norm_num
  ⟨(metropolis_acceptance (n := 1) 0 0 (1/2) (fun _ => 0) (fun _ => 1)).2.1 hexp, hexp⟩

/-!
## Sampler construction

`HMC._init_` (Samplers.py lines 60-84): the dimensions of the three
collaborators must agree (a chained Python comparison
`target.dimensions == prior.dimensions == mass_matrix.dimensions`); a mismatch
raises `ValueError` before anything else happens; on success the sampler
stores the common dimension and the three collaborators.  Collaborators are
embedded as records of their capability interfaces (spec §6).
-/

/-- The target interface: `dimensions`, `misfit`, `gradient`. -/
structure Target where
  dimensions : ℕ
  misfit : (ℕ → ℚ) → ℚ
  gradient : (ℕ → ℚ) → ℕ → ℚ

/-- The prior interface: `dimensions`, `misfit`, `gradient`, `bounded`. -/
structure Prior where
  dimensions : ℕ
  misfit : (ℕ → ℚ) → ℚ
  gradient : (ℕ → ℚ) → ℕ → ℚ
  bounded : Bool

/-- The mass-matrix interface. -/
structure MassMatrix where
  dimensions : ℕ
  kineticEnergy : (ℕ → ℚ) → ℚ
  kineticEnergyGradient : (ℕ → ℚ) → ℕ → ℚ

/-- The state an `HMC` sampler holds after construction. -/
structure HMC where
  dimensions : ℕ
  target : Target
  prior : Prior
  mass_matrix : MassMatrix

/-- `HMC._init_`: dimension sanity check, then storage of the collaborators. -/
def HMC_init (target : Target) (mass_matrix : MassMatrix) (prior : Prior) :
    Except String HMC :=
  if target.dimensions = prior.dimensions ∧ prior.dimensions = mass_matrix.dimensions then
    Except.ok ⟨target.dimensions, target, prior, mass_matrix⟩
  else
    Except.error "Incompatible target/prior/mass matrix."

/-- C8: constructing an HMC sampler fails with a `ValueError` exactly when the
three collaborator dimensions are not all equal, before any sampling can
happen; when they agree, construction succeeds and stores the common
dimension together with the three collaborators.  (The embedded sampling loop
below performs no dimension check of its own.) -/
theorem HMC_init_dimension_check (target : Target) (mass_matrix : MassMatrix)
    (prior : Prior) :
    (¬(target.dimensions = prior.dimensions ∧
        prior.dimensions = mass_matrix.dimensions) →
      HMC_init target mass_matrix prior
        = Except.error "Incompatible target/prior/mass matrix.") ∧
    (target.dimensions = prior.dimensions ∧
        prior.dimensions = mass_matrix.dimensions →
      HMC_init target mass_matrix prior
        = Except.ok ⟨target.dimensions, target, prior, mass_matrix⟩) := by
  constructor <;> intro h <;> simp [HMC_init, h]

/-- A concrete 2-dimensional target used by witnesses. -/
def targetA : Target := ⟨2, fun _ => 0, fun _ _ => 0⟩

/-- A concrete 2-dimensional prior used by witnesses. -/
def priorA : Prior := ⟨2, fun _ => 0, fun _ _ => 0, false⟩

/-- A concrete 3-dimensional prior used by witnesses. -/
def priorB : Prior := ⟨3, fun _ => 0, fun _ _ => 0, false⟩

/-- A concrete 2-dimensional mass matrix used by witnesses. -/
def massA : MassMatrix := ⟨2, fun _ => 0, fun _ _ => 0⟩

/-- C8 (witness): matching dimensions (2,2,2) construct the sampler, and a
mismatch (2,3,2) is rejected with the configuration error. -/
theorem HMC_init_dimension_check_witness :
    HMC_init targetA massA priorA = Except.ok ⟨2, targetA, priorA, massA⟩ ∧
    HMC_init targetA massA priorB
      = Except.error "Incompatible target/prior/mass matrix." :=
  ⟨(HMC_init_dimension_check targetA massA priorA).2 (by constructor <;> rfl),
   (HMC_init_dimension_check targetA massA priorB).1 (by simp [targetA, priorB, massA])⟩

/-!
## Chain initialisation

Line 119 of Samplers.py: `coordinates = numpy.ones((self.dimensions, 1))`.
`HMC.sample` takes only `(samples_filename, proposals, online_thinning,
sample_ram_buffer_size, integration_steps, time step, randomize flags)` — no
initial model — so every run starts from the all-ones vector.  The chain is
embedded with the per-proposal update abstracted as a function of the current
state and the proposal index.
-/

/-- Line 119: the all-ones column vector of length `dims`. -/
def initialCoordinates (dims : ℕ) : Vec dims := fun _ => 1

/-- The chain state entering proposal `k`, for an arbitrary per-proposal
update (the accept/reject outcome of each proposal). -/
def sampleChainState (dims : ℕ) (update : Vec dims → ℕ → Vec dims) : ℕ → Vec dims
  | 0 => initialCoordinates dims
  | k + 1 => update (sampleChainState dims update k) k

/-- C9: for every dimension and every per-proposal update — i.e. regardless of
every argument the caller can pass through the sampling interface — the chain
entering proposal `0` is the all-ones vector, and the first proposal is
computed from exactly that state. -/
theorem sample_starts_at_ones (dims : ℕ) (update : Vec dims → ℕ → Vec dims) :
    sampleChainState dims update 0 = (fun _ => 1) ∧
    sampleChainState dims update 1 = update (fun _ => 1) 0 := ⟨rfl, rfl⟩

/-!
## Per-proposal randomization of steps and step size

Samplers.py lines 154-173.  With randomization enabled the iteration count is
`int(integration_steps * (0.5 + numpy.random.rand()))` and the time step is
the nominal time step times `(0.5 + numpy.random.rand())`; with it disabled
the nominal values are used.  The uniform draw `u = numpy.random.rand()` lies
in `[0, 1)`; `int()` truncates toward zero.
-/

/-- Python `int()`: truncation toward zero on a rational. -/
def pyInt (x : ℚ) : ℤ := if 0 ≤ x then ⌊x⌋ else ⌈x⌉

/-- Lines 157-158: the randomized per-proposal iteration count. -/
def iterationsDrawRandomized (integration_steps : ℕ) (u : ℚ) : ℤ :=
  pyInt ((integration_steps : ℚ) * (1/2 + u))

/-- Lines 162-163: the fixed per-proposal iteration count. -/
def iterationsDrawFixed (integration_steps : ℕ) : ℤ := integration_steps

/-- Lines 167-168: the randomized per-proposal time step (the nominal time
step scaled by `0.5 + u`). -/
def timeStepDrawRandomized (t u : ℚ) : ℚ := t * (1/2 + u)

/-- Lines 172-173: the fixed per-proposal time step. -/
def timeStepDrawFixed (t : ℚ) : ℚ := t

/-- C5, counterexample: with a nominal step count of `1` and draw `u = 0`, the
truncated randomized step count is `0`, refuting the claim that it is always
at least `1`. -/
theorem iterations_draw_can_be_zero :
    iterationsDrawRandomized 1 0 = 0 ∧ ¬(1 ≤ iterationsDrawRandomized 1 0) := by
  have h : iterationsDrawRandomized 1 0 = ⌊(1 : ℚ) * (1/2 + 0)⌋ := by
    unfold iterationsDrawRandomized pyInt
    rw [if_pos (by norm_num)]
    norm_num
  have h2 : ⌊(1 : ℚ) * (1/2 + 0)⌋ = 0 := by
    rw [Int.floor_eq_zero_iff]
    constructor <;> norm_num
  rw [h, h2]
  omega

/-- C5 (amended): for every uniform draw `u ∈ [0,1)`, the randomized step
count is `⌊nominal * (1/2 + u)⌋`, a truncation of a value drawn from
`[0.5, 1.5) * nominal`; it is at least `1` whenever the nominal count is at
least `2` (but carries no `≥ 1` clamp, so it can be `0` for nominal count
`1`); the randomized time step is `nominal * (1/2 + u)`, lying in
`[0.5, 1.5) * nominal` for positive nominal step; with randomization disabled
both nominal values are used unchanged. -/
theorem proposal_randomization (k : ℕ) (t u : ℚ) (h0 : 0 ≤ u) (h1 : u < 1) :
    iterationsDrawRandomized k u = ⌊(k : ℚ) * (1/2 + u)⌋ ∧
    (0 < k → (k : ℚ) * (1/2) ≤ (k : ℚ) * (1/2 + u) ∧
      (k : ℚ) * (1/2 + u) < (k : ℚ) * (3/2)) ∧
    (2 ≤ k → 1 ≤ iterationsDrawRandomized k u) ∧
    iterationsDrawFixed k = k ∧
    timeStepDrawRandomized t u = t * (1/2 + u) ∧
    (0 < t → t * (1/2) ≤ timeStepDrawRandomized t u ∧
      timeStepDrawRandomized t u < t * (3/2)) ∧
    timeStepDrawFixed t = t := by
  have hnn : (0 : ℚ) ≤ (k : ℚ) * (1/2 + u) := by positivity
  have hfloor : iterationsDrawRandomized k u = ⌊(k : ℚ) * (1/2 + u)⌋ := by
    unfold iterationsDrawRandomized pyInt
    rw [if_pos hnn]
  refine ⟨hfloor, fun hk => ⟨?_, ?_⟩, fun hk => ?_, rfl, rfl, fun ht => ⟨?_, ?_⟩, rfl⟩
  · have hkq : (0 : ℚ) ≤ (k : ℚ) := by positivity
    nlinarith
  · have hkq : (0 : ℚ) < (k : ℚ) := by exact_mod_cast hk
    nlinarith
  · rw [hfloor]
    refine Int.le_floor.mpr ?_
    have hkq : (2 : ℚ) ≤ (k : ℚ) := by exact_mod_cast hk
    push_cast
    nlinarith
  · unfold timeStepDrawRandomized
    nlinarith
  · unfold timeStepDrawRandomized
    nlinarith

/-- C5 (witness): the randomization theorem at nominal step count `2`, nominal
time step `1/10`, draw `u = 1/2`. -/
theorem proposal_randomization_witness :
    iterationsDrawRandomized 2 (1/2) = ⌊(2 : ℚ) * (1/2 + 1/2)⌋ ∧
    (0 < 2 → (2 : ℚ) * (1/2) ≤ (2 : ℚ) * (1/2 + 1/2) ∧
      (2 : ℚ) * (1/2 + 1/2) < (2 : ℚ) * (3/2)) ∧
    (2 ≤ 2 → 1 ≤ iterationsDrawRandomized 2 (1/2)) ∧
    iterationsDrawFixed 2 = 2 ∧
    timeStepDrawRandomized (1/10) (1/2) = (1/10) * (1/2 + 1/2) ∧
    (0 < (1/10 : ℚ) → (1/10 : ℚ) * (1/2) ≤ timeStepDrawRandomized (1/10) (1/2) ∧
      timeStepDrawRandomized (1/10) (1/2) < (1/10 : ℚ) * (3/2)) ∧
    timeStepDrawFixed (1/10 : ℚ) = 1/10 :=
  proposal_randomization 2 (1/10) (1/2) (by norm_num) (by norm_num)

/-!
## Bound updates

`_AbstractDistribution.update_bounds` (Distributions/base.py lines 143-206).
After the (type) checks of lines 175-184 — which cannot fire here, where a
passed bound is by construction an array (`some`) or `None` (`none`) — the
method first assigns both bounds attributes (lines 187-188) and only then
validates shape (lines 191-198) and ordering (lines 201-206), raising
`ValueError` and leaving the new attributes in place.  A bounds array of the
correct shape `(dimensions, 1)` is a list of length `dimensions`.
-/

/-- The bounds-carrying state of a distribution. -/
structure DistState where
  dimensions : ℕ
  lower_bounds : Option (List ℚ)
  upper_bounds : Option (List ℚ)

/-- `update_bounds`: assign both attributes, then report the first failing
validation (`ValueError`) if any; the returned state is the mutated `self`. -/
def update_bounds (d : DistState) (lower upper : Option (List ℚ)) :
    DistState × Option String :=
  let d1 : DistState := { d with upper_bounds := upper, lower_bounds := lower }
  (d1,
    if (match d1.lower_bounds with
        | some l => l.length != d1.dimensions
        | none => false) ||
       (match d1.upper_bounds with
        | some u_ => u_.length != d1.dimensions
        | none => false) then
      some "Bounds vectors are of incorrect size."
    else if (match d1.lower_bounds, d1.upper_bounds with
        | some l, some u_ => (List.zip u_ l).any fun p => decide (p.1 ≤ p.2)
        | _, _ => false) then
      some "Bounds vectors are incompatible."
    else none)

/-- C10: `update_bounds` always overwrites both bounds attributes first, so
when it reports a `ValueError` — exactly when a passed array has the wrong
shape, or both bounds are arrays and some upper bound is less than or equal to
the corresponding lower bound — the distribution is left holding the rejected
bounds (the update is not rolled back), and the dimension field is untouched. -/
theorem update_bounds_no_rollback (d : DistState) (lower upper : Option (List ℚ)) :
    (update_bounds d lower upper).1.lower_bounds = lower ∧
    (update_bounds d lower upper).1.upper_bounds = upper ∧
    (update_bounds d lower upper).1.dimensions = d.dimensions ∧
    ((update_bounds d lower upper).2.isSome = true ↔
      ((∃ l, lower = some l ∧ l.length ≠ d.dimensions) ∨
       (∃ u_, upper = some u_ ∧ u_.length ≠ d.dimensions) ∨
       (∃ l u_, lower = some l ∧ upper = some u_ ∧
         ∃ p ∈ List.zip u_ l, p.1 ≤ p.2))) := by
  refine ⟨rfl, rfl, rfl, ?_⟩
  rcases lower with _ | l <;> rcases upper with _ | u_ <;>
    simp only [update_bounds, Bool.or_eq_true, bne_iff_ne, List.any_eq_true,
      decide_eq_true_eq, Option.some.injEq] <;>
    split_ifs with h1 h2 <;>
    simp_all <;>
    tauto

/-!
## Thinning, buffering and flushing

`HMC.sample`, Samplers.py lines 210-258, together with `flush_samples`
(lines 332-334).  At proposal `k` (0-indexed, `k % online_thinning == 0`) a
record with thinned index `k / online_thinning` is appended to buffer slot
`(k / online_thinning) % sample_ram_buffer_size`; when that slot is the last
one, the full buffer is flushed to columns `start..end` with
`start = int(k/thinning) - size + 1`, `end = int(k/thinning)`.  After the
loop (the `finally:` block, reached both on completion and on interruption,
with `proposal` the last iterated proposal `P`) a final flush writes columns
`int((P/thinning)/size)*size .. int(P/thinning) - 1` — one column less than
the records appended ("Write out one less to be sure") — unless its range is
empty or the buffer position is the last slot.  Each `flush_samples(start,
end, data)` writes dataset columns `start..end` and sets the
`end_of_samples` attribute to `end + 1`.  Python float `/`, float `%` and
`int()` are modelled exactly on `ℚ`.
-/

/-- Python float `%` with positive modulus: `x % y = x - y * floor(x / y)`. -/
def pyMod (x y : ℚ) : ℚ := x - y * ⌊x / y⌋

/-- The in-loop flush events `(start, end)` of a run whose last iterated
proposal is `P`, in order (lines 227-235). -/
def inLoopFlushes (t S P : ℕ) : List (ℤ × ℤ) :=
  (List.range (P + 1)).filterMap fun k =>
    if k % t = 0 then
      if pyInt (pyMod ((k : ℚ) / t) S) = (S : ℤ) - 1 then
        some (pyInt ((k : ℚ) / t - S + 1), pyInt ((k : ℚ) / t))
      else none
    else none

/-- The `finally:` block's flush event, if its guard fires (lines 241-258). -/
def finalFlush (t S P : ℕ) : Option (ℤ × ℤ) :=
  let bl := pyInt (pyMod ((P : ℚ) / t) S)
  let start := pyInt (((P : ℚ) / t) / S) * (S : ℤ)
  let e := pyInt ((P : ℚ) / t) - 1
  if 0 < e - start + 1 ∧ bl ≠ (S : ℤ) - 1 then some (start, e) else none

/-- All flush events of a run, in order. -/
def flushEvents (t S P : ℕ) : List (ℤ × ℤ) :=
  inLoopFlushes t S P ++ (finalFlush t S P).toList

/-- How many times dataset column `col` is written over the run. -/
def writeCount (t S P : ℕ) (col : ℤ) : ℕ :=
  ((flushEvents t S P).filter fun ev => decide (ev.1 ≤ col ∧ col ≤ ev.2)).length

/-- The final value of the `end_of_samples` attribute (set to `end + 1` by
every `flush_samples` call), if any flush happened. -/
def endOfSamplesAttr (t S P : ℕ) : Option ℤ :=
  (flushEvents t S P).getLast?.map fun ev => ev.2 + 1

/-- How many records the loop appends to the RAM buffer (lines 211-222):
one per proposal `k ≤ P` with `k % online_thinning = 0`. -/
def recordsAppended (t P : ℕ) : ℕ :=
  ((List.range (P + 1)).filter fun k => decide (k % t = 0)).length

/-- `inLoopFlushes` with the float bookkeeping discharged to `ℕ` arithmetic. -/
def inLoopFlushesN (t S P : ℕ) : List (ℤ × ℤ) :=
  (List.range (P + 1)).filterMap fun k =>
    if k % t = 0 ∧ (k / t) % S = S - 1 then
      some (((k / t : ℕ) : ℤ) - S + 1, ((k / t : ℕ) : ℤ))
    else none

/-- `finalFlush` with the float bookkeeping discharged to `ℕ` arithmetic. -/
def finalFlushN (t S P : ℕ) : Option (ℤ × ℤ) :=
  if 0 < (P / t) % S ∧ (P / t) % S ≠ S - 1 then
    some (((P / t / S * S : ℕ) : ℤ), ((P / t : ℕ) : ℤ) - 1)
  else none

/-- `flushEvents` with the float bookkeeping discharged to `ℕ` arithmetic. -/
def flushEventsN (t S P : ℕ) : List (ℤ × ℤ) :=
  inLoopFlushesN t S P ++ (finalFlushN t S P).toList

lemma pyInt_intCast (z : ℤ) : pyInt (z : ℚ) = z := by
  unfold pyInt
  split_ifs <;> simp

lemma pyInt_div_natCast (P t : ℕ) : pyInt ((P : ℚ) / t) = ((P / t : ℕ) : ℤ) := by
  unfold pyInt
  rw [if_pos (by positivity), ← Int.natCast_floor_eq_floor (by positivity),
    Nat.floor_div_nat, Nat.floor_natCast]

lemma pyInt_div_div_natCast (P t S : ℕ) :
    pyInt (((P : ℚ) / t) / S) = ((P / t / S : ℕ) : ℤ) := by
  unfold pyInt
  rw [if_pos (by positivity), ← Int.natCast_floor_eq_floor (by positivity),
    Nat.floor_div_nat, Nat.floor_div_nat, Nat.floor_natCast]

lemma pyInt_pyMod (x : ℚ) (S : ℕ) (hx : 0 ≤ x) (hS : 0 < S) :
    pyInt (pyMod x S) = ((⌊x⌋₊ % S : ℕ) : ℤ) := by
  have hSq : (0 : ℚ) < (S : ℚ) := by exact_mod_cast hS
  have hq : ⌊x / (S : ℚ)⌋ = ((⌊x⌋₊ / S : ℕ) : ℤ) := by
    rw [← Int.natCast_floor_eq_floor (by positivity), Nat.floor_div_nat]
  have h0 : (0 : ℚ) ≤ pyMod x S := by
    have h := Int.sub_floor_div_mul_nonneg x hSq
    unfold pyMod
    nlinarith [h]
  unfold pyInt
  rw [if_pos h0]
  unfold pyMod
  rw [hq, Int.cast_natCast, ← Nat.cast_mul, Int.floor_sub_nat,
    ← Int.natCast_floor_eq_floor hx]
  have hdm := Nat.div_add_mod ⌊x⌋₊ S
  omega

lemma inLoopFlushes_eq (t S P : ℕ) (hS : 0 < S) :
    inLoopFlushes t S P = inLoopFlushesN t S P := by
  unfold inLoopFlushes inLoopFlushesN
  refine List.filterMap_congr fun k _ => ?_
  by_cases hkt : k % t = 0
  · have hdvd : t ∣ k := Nat.dvd_of_mod_eq_zero hkt
    have hcast : ((k / t : ℕ) : ℚ) = (k : ℚ) / t := Rat.natCast_div k t hdvd
    have hfl : ⌊(k : ℚ) / t⌋₊ = k / t := by rw [← hcast, Nat.floor_natCast]
    have h1 : pyInt (pyMod ((k : ℚ) / t) S) = (((k / t) % S : ℕ) : ℤ) := by
      rw [pyInt_pyMod _ _ (by positivity) hS, hfl]
    by_cases hcond : (k / t) % S = S - 1
    · have hv1 : pyInt ((k : ℚ) / t - S + 1) = ((k / t : ℕ) : ℤ) - S + 1 := by
        have harg : (k : ℚ) / t - S + 1 = ((((k / t : ℕ) : ℤ) - S + 1 : ℤ) : ℚ) := by
          rw [Int.cast_add, Int.cast_sub, Int.cast_natCast, Int.cast_one,
            Int.cast_natCast, ← hcast]
        rw [harg, pyInt_intCast]
      have hv2 : pyInt ((k : ℚ) / t) = ((k / t : ℕ) : ℤ) := pyInt_div_natCast k t
      rw [if_pos hkt, if_pos (show pyInt (pyMod ((k : ℚ) / t) S) = (S : ℤ) - 1 by
          rw [h1]; omega),
        if_pos ⟨hkt, hcond⟩, hv1, hv2]
    · rw [if_pos hkt, if_neg (show ¬pyInt (pyMod ((k : ℚ) / t) S) = (S : ℤ) - 1 by
          rw [h1]; omega),
        if_neg (by tauto)]
  · rw [if_neg hkt, if_neg (by tauto)]

lemma final_cond_iff (a S m r : ℕ) (hdm : m + r = a) (hr : r < S) :
    (0 < (a : ℤ) - 1 - (m : ℤ) + 1 ∧ ((r : ℕ) : ℤ) ≠ (S : ℤ) - 1) ↔
    (0 < r ∧ r ≠ S - 1) := by omega

lemma finalFlush_eq (t S P : ℕ) (hS : 0 < S) : finalFlush t S P = finalFlushN t S P := by
  unfold finalFlush finalFlushN
  have h1 : pyInt (pyMod ((P : ℚ) / t) S) = (((P / t) % S : ℕ) : ℤ) := by
    rw [pyInt_pyMod _ _ (by positivity) hS, Nat.floor_div_nat, Nat.floor_natCast]
  have h2 := pyInt_div_natCast P t
  have h3 := pyInt_div_div_natCast P t S
  have hprod : ((P / t / S : ℕ) : ℤ) * (S : ℤ) = ((P / t / S * S : ℕ) : ℤ) := by
    push_cast; ring
  rw [h1, h2, h3, hprod]
  have hdm : P / t / S * S + (P / t) % S = P / t := Nat.div_add_mod' (P / t) S
  have hr : (P / t) % S < S := Nat.mod_lt _ hS
  exact if_congr (final_cond_iff (P / t) S (P / t / S * S) ((P / t) % S) hdm hr) rfl rfl

lemma flushEvents_eq (t S P : ℕ) (hS : 0 < S) : flushEvents t S P = flushEventsN t S P := by
  unfold flushEvents flushEventsN
  rw [inLoopFlushes_eq t S P hS, finalFlush_eq t S P hS]

/-- C1: evaluation of the flush bookkeeping at the failing input
`proposals = 2` (last iterated proposal `P = 1`), `online_thinning = 1`,
`sample_ram_buffer_size = 3`, uninterrupted: the loop appends two records
(thinned indices 0 and 1) to the RAM buffer, but the complete flush history is
the single event `(0, 0)` — column 0 is written once and column 1 never — so
the newest appended record is silently dropped by the `finally:` flush, which
deliberately writes one column less (`end = int(proposal / online_thinning) -
1`, "Write out one less to be sure"). -/
theorem sample_flush_drops_newest_record :
    recordsAppended 1 1 = 2 ∧
    flushEvents 1 3 1 = [((0 : ℤ), 0)] ∧
    writeCount 1 3 1 0 = 1 ∧
    writeCount 1 3 1 1 = 0 := by
  have he := flushEvents_eq 1 3 1 (by norm_num)
  refine ⟨by decide, by rw [he]; decide, ?_, ?_⟩ <;> · unfold writeCount; rw [he]; decide

set_option maxRecDepth 100000 in
/-- C2: evaluation of a completed run with `proposals = 1000` (last proposal
`P = 999`), `online_thinning = 10` and the default
`sample_ram_buffer_size = 1000`: the loop appends 100 records, but the only
flush is the final one, writing columns `0..98` — 99 columns, each exactly
once, with column 99 never written — and it sets `end_of_samples` to `99`,
not the `100` the claim requires. -/
theorem sample_run_1000_10_writes_99_columns :
    flushEvents 10 1000 999 = [((0 : ℤ), 98)] ∧
    endOfSamplesAttr 10 1000 999 = some 99 ∧
    recordsAppended 10 999 = 100 ∧
    writeCount 10 1000 999 98 = 1 ∧
    writeCount 10 1000 999 99 = 0 := by
  have he := flushEvents_eq 10 1000 999 (by norm_num)
  have hev : flushEventsN 10 1000 999 = [((0 : ℤ), 98)] := by decide
  rw [he, hev]
  refine ⟨rfl, ?_, by decide, ?_, ?_⟩
  · unfold endOfSamplesAttr
    rw [he, hev]
    rfl
  · unfold writeCount
    rw [he, hev]
    decide
  · unfold writeCount
    rw [he, hev]
    decide

end HmcTomography
